import Mathlib

/-!
Verification of the `mlog` command-line client (denis-engcom/mlog).

This development shallowly embeds the current version of the program
(`cmd/mlog/main.go`, `cmd/mlog/error.go`, v0.2.2) in Lean:

* Go strings are byte sequences, modelled as `List Nat` (`GoStr`); the
  helper `gs` encodes a Lean string literal to its UTF-8 bytes exactly as
  a Go string literal denotes its bytes.
* The remote monday.com service, the file system and the HTTP download
  are external collaborators; functions that interact with them take the
  external outcome as an explicit argument, and functions stop at the
  request boundary (the request that would be issued is returned as data).
* `strconv.ParseFloat` / `strconv.Atoi` from the Go standard library are
  modelled by `goParseFloat` / `goAtoi` below, following the accepting
  grammar of `strconv/atof.go` and `strconv/atoi.go` (sign, `inf`,
  `infinity`, `nan`, decimal and hexadecimal mantissas, exponents,
  underscore placement, int64 range), including the error behaviour
  (syntax errors and overflow to the ±Inf range error).
* Float64 values are modelled bit-faithfully: a finite double is a
  dyadic number `m · 2^e` (`GoFloat.fin m e`), produced by IEEE 754
  round-to-nearest-even (`roundCore`, an integer-only algorithm covering
  normals, subnormals, underflow to zero and overflow to ±Inf).
  `ParseFloat` rounds the literal's exact value to the nearest double,
  and the summary's `+=` accumulation rounds after every addition
  (`f64add`), exactly as float64 does.  The only simplification is that
  the sign of a floating-point zero is dropped (`-0` becomes `0`).
* Go runtime panics (out-of-range indexing) appear as an explicit
  `crash` result, distinguished from returned errors.
-/

set_option maxRecDepth 40000

/-- A Go string, as its sequence of bytes. -/
abbrev GoStr := List Nat

/-- UTF-8 encoding of one character, as byte values. -/
def utf8Bytes (c : Char) : List Nat :=
  let n := c.toNat
  if n < 128 then [n]
  else if n < 2048 then [192 + n / 64, 128 + n % 64]
  else if n < 65536 then [224 + n / 4096, 128 + n / 64 % 64, 128 + n % 64]
  else [240 + n / 262144, 128 + n / 4096 % 64, 128 + n / 64 % 64, 128 + n % 64]

/-- The bytes of a Go string literal (UTF-8 encoding of the text). -/
def gs (s : String) : GoStr := (s.data.map utf8Bytes).flatten

/-- Go `strconv`'s `lower(c) = c | 0x20`. -/
def lowerB (b : Nat) : Nat := b ||| 32

/-- The byte is an ASCII decimal digit. -/
def isDigitB (b : Nat) : Bool := 48 ≤ b && b ≤ 57

/-- The byte is a hexadecimal letter `a`-`f` or `A`-`F`. -/
def isHexLetterB (b : Nat) : Bool := 97 ≤ lowerB b && lowerB b ≤ 102

/-- Mantissa digit for the decimal (`hex = false`) or hex (`hex = true`) base. -/
def isMantDigit (hex : Bool) (b : Nat) : Bool := isDigitB b || (hex && isHexLetterB b)

/-- Numeric value of a (decimal or hex) digit byte. -/
def digitValB (b : Nat) : Nat := if isDigitB b then b - 48 else lowerB b - 87

/-- Strip one leading `+` or `-`; returns the negative flag and the rest. -/
def splitSign : GoStr → Bool × GoStr
  | 43 :: r => (false, r)
  | 45 :: r => (true, r)
  | s => (false, s)

/-- Lexicographic byte comparison, Go's `cmp.Compare` on strings
(result −1, 0 or 1). -/
def goCmpStr : GoStr → GoStr → Int
  | [], [] => 0
  | [], _ :: _ => -1
  | _ :: _, [] => 1
  | a :: as, b :: bs => if a < b then -1 else if b < a then 1 else goCmpStr as bs

/-- Lookup in an association list, modelling Go map indexing `m[k]`
(`none` when the key is absent). -/
def lookupA {α : Type} (m : List (GoStr × α)) (k : GoStr) : Option α :=
  (m.find? (fun p => p.1 == k)).map (fun p => p.2)

/-- A float64 value: a finite double written as the dyadic number
`m · 2^e` (as `roundCore` produces it: `|m| < 2^53`, normals with
`2^52 ≤ |m|`, subnormals at `e = -1074`, zero as `fin 0 0`; the sign of
zero is dropped), an infinity, or NaN. -/
inductive GoFloat where
  | fin (m : Int) (e : Int)
  | posInf
  | negInf
  | nan
deriving DecidableEq, Repr

/-- Model of `strconv/atof.go`'s `special`: the whole string is a
case-insensitive `nan` (unsigned), or an optionally signed `inf` or
`infinity`. -/
def specialOK (s : GoStr) : Option GoFloat :=
  if s.map lowerB == gs ("nan") then some GoFloat.nan
  else
    let p := splitSign s
    if p.2.map lowerB == gs ("inf") || p.2.map lowerB == gs ("infinity") then
      some (if p.1 then GoFloat.negInf else GoFloat.posInf)
    else none

/-- A byte the mantissa scan of `readFloat` consumes: a digit of the base,
a dot, or an underscore. -/
def isMantChar (hex : Bool) (b : Nat) : Bool := isMantDigit hex b || b == 46 || b == 95

/-- The mantissa run consumed by `readFloat`'s digit loop. -/
def mantRun (hex : Bool) (r : GoStr) : GoStr := r.takeWhile (isMantChar hex)

/-- What remains of the input after the mantissa run. -/
def mantRest (hex : Bool) (r : GoStr) : GoStr := r.dropWhile (isMantChar hex)

/-- Exponent part of `readFloat`: after the mantissa, either nothing (only
legal in decimal mode) or `e`/`E` (decimal) or `p`/`P` (hex), an optional
sign, then at least one digit, with underscores permitted after the first
digit; the exponent must reach the end of the input. -/
def expPart (hex : Bool) (rest : GoStr) : Option Int :=
  match rest with
  | [] => if hex then none else some 0
  | c :: er =>
    if lowerB c == (if hex then 112 else 101) then
      let p := splitSign er
      match p.2 with
      | [] => none
      | d :: _ =>
        if isDigitB d then
          let erest := p.2.dropWhile (fun b => isDigitB b || b == 95)
          if erest.isEmpty then
            let e : Nat := ((p.2.takeWhile (fun b => isDigitB b || b == 95)).filter isDigitB).foldl
              (fun a b => a * 10 + (b - 48)) 0
            some (if p.1 then -(e : Int) else (e : Int))
          else none
        else none
    else none

/-- Loop of `strconv`'s `underscoreOK`: `saw` is 0 at the start of the
number, 1 after a digit (or the base prefix), 2 after an underscore, 3
after any other byte.  An underscore may only follow a digit, and must be
followed by a digit. -/
def uokLoop (hex : Bool) : GoStr → Nat → Bool
  | [], saw => saw != 2
  | c :: r, saw =>
    if isMantDigit hex c then uokLoop hex r 1
    else if c == 95 then (if saw != 1 then false else uokLoop hex r 2)
    else if saw == 2 then false
    else uokLoop hex r 3

/-- Model of `strconv`'s `underscoreOK` over the whole accepted string. -/
def underscoreOK (s : GoStr) : Bool :=
  let s1 := (splitSign s).2
  match s1 with
  | 48 :: x :: r => if lowerB x == 120 then uokLoop true r 1 else uokLoop false s1 0
  | _ => uokLoop false s1 0

/-- Value of a digit string in the given base. -/
def mantValue (base : Nat) (digits : List Nat) : Nat :=
  digits.foldl (fun a d => a * base + d) 0

/-- The syntactic pieces of an accepted finite float literal: sign, base,
mantissa digits read as one integer, number of fractional digits, and the
exponent (of 10 for decimal literals, of 2 for hex literals). -/
structure FloatParts where
  neg : Bool
  hex : Bool
  mant : Nat
  frac : Nat
  exp : Int
deriving DecidableEq, Repr

/-- Magnitude of a parsed literal as an unreduced fraction
`mant · ebase^exp / base^frac` (numerator, denominator of naturals). -/
def partsNumDen (p : FloatParts) : Nat × Nat :=
  let base := if p.hex then 16 else 10
  let ebase := if p.hex then 2 else 10
  match p.exp with
  | Int.ofNat e => (p.mant * ebase ^ e, base ^ p.frac)
  | Int.negSucc e => (p.mant, base ^ p.frac * ebase ^ (e + 1))

/-- Smallest magnitude that float64 rounding sends to ±Inf, making
`ParseFloat` report a range error: `2^1024 − 2^970`. -/
def overflowThreshold : Nat := 2 ^ 1024 - 2 ^ 970

/-- The literal's magnitude reaches the float64 overflow threshold. -/
def partsOverflow (p : FloatParts) : Bool :=
  overflowThreshold * (partsNumDen p).2 ≤ (partsNumDen p).1

/-- Bit length of a natural number, by fuel-bounded halving (`0` has
length `0`).  The fuel `2400` covers every number this file computes
with: all magnitudes that reach `roundCore` are below `2^1025`, so the
scaled integer inside it is below `2^2126`. -/
def bitlenAux : Nat → Nat → Nat
  | 0, _ => 0
  | fuel + 1, n => if n = 0 then 0 else bitlenAux fuel (n / 2) + 1

/-- Bit length of a natural number (`bitlen n = ⌊log2 n⌋ + 1` for
`n > 0`). -/
def bitlen (n : Nat) : Nat := bitlenAux 2400 n

/-- IEEE 754 binary64 round-to-nearest-even of the positive rational
`num / den`, with unbounded exponent above and the subnormal grid below:
returns `(m, g)` with value `m · 2^g`.  The scaled integer
`m0 = ⌊(num/den) · 2^1100⌋` pins down `⌊log2 (num/den)⌋` exactly for
every magnitude ≥ `2^-1100` (and anything smaller than `2^-1100` is far
below half the least subnormal `2^-1074`, so it rounds to zero); the
grid exponent is `g = max (⌊log2 x⌋ - 52) (-1074)` and the mantissa is
`num / (den · 2^g)` rounded half-to-even.  Overflow (value ≥ `2^1024`)
is left to the caller to detect on the result. -/
def roundCore (num den : Nat) : Nat × Int :=
  if num = 0 then (0, 0)
  else
    let m0 := num * 2 ^ 1100 / den
    if m0 = 0 then (0, 0)
    else
      let e : Int := (bitlen m0 : Int) - 1 - 1100
      let g : Int := max (e - 52) (-1074)
      let ab : Nat × Nat :=
        if 0 ≤ g then (num, den * 2 ^ g.toNat) else (num * 2 ^ (-g).toNat, den)
      let q := ab.1 / ab.2
      let r := ab.1 % ab.2
      let m :=
        if 2 * r < ab.2 then q
        else if ab.2 < 2 * r then q + 1
        else if q % 2 = 0 then q else q + 1
      if m = 0 then (0, 0) else (m, g)

/-- The signed rounded double of `± num / den`: `±Inf` when the rounded
magnitude reaches `2^1024` (IEEE overflow), the finite double otherwise. -/
def roundF64 (neg : Bool) (num den : Nat) : GoFloat :=
  let mg := roundCore num den
  if 0 ≤ mg.2 && 2 ^ 1024 ≤ mg.1 * 2 ^ mg.2.toNat then
    if neg then GoFloat.negInf else GoFloat.posInf
  else GoFloat.fin (if neg then -(mg.1 : Int) else (mg.1 : Int)) mg.2

/-- The double `ParseFloat` returns for an accepted finite literal: its
exact value rounded to the nearest binary64 (the syntax phase has
already rejected values whose rounded magnitude reaches `2^1024`, so the
overflow branch of `roundF64` cannot fire here). -/
def partsVal (p : FloatParts) : GoFloat :=
  roundF64 p.neg (partsNumDen p).1 (partsNumDen p).2

/-- Float64 addition of two finite doubles `m1·2^e1 + m2·2^e2`: the
exact sum is a dyadic rational, rounded back to a double by `roundF64`
(overflowing to ±Inf). -/
def f64add (m1 e1 m2 e2 : Int) : GoFloat :=
  let e := min e1 e2
  let s : Int := m1 * 2 ^ (e1 - e).toNat + m2 * 2 ^ (e2 - e).toNat
  let nd : Nat × Nat := if 0 ≤ e then (s.natAbs * 2 ^ e.toNat, 1) else (s.natAbs, 2 ^ (-e).toNat)
  roundF64 (s < 0) nd.1 nd.2

/-- The rational value of a float64 (`none` for infinities and NaN). -/
def goFloatVal : GoFloat → Option ℚ
  | GoFloat.fin m e => some ((m : ℚ) * (2 : ℚ) ^ e)
  | _ => none

/-- Outcome of the syntactic phase of `strconv.ParseFloat`. -/
inductive FloatSyntax where
  | finite (p : FloatParts)
  | posInf
  | negInf
  | nan
deriving DecidableEq, Repr

/-- Syntactic phase of Go's `strconv.ParseFloat(s, 64)`: `none` when Go
returns a non-nil error (syntax error, or overflow range error via
`partsOverflow`), otherwise the recognized literal. -/
def goParseFloatSyntax (s : GoStr) : Option FloatSyntax :=
  match specialOK s with
  | some GoFloat.nan => some FloatSyntax.nan
  | some GoFloat.posInf => some FloatSyntax.posInf
  | some GoFloat.negInf => some FloatSyntax.negInf
  | _ =>
    let p := splitSign s
    let hex : Bool :=
      match p.2 with
      | 48 :: x :: _ :: _ => lowerB x == 120
      | _ => false
    let body := if hex then p.2.drop 2 else p.2
    let run := mantRun hex body
    let digits := (run.filter (isMantDigit hex)).map digitValB
    if 2 ≤ run.count 46 then none
    else if digits.isEmpty then none
    else
      match expPart hex (mantRest hex body) with
      | none => none
      | some e =>
        if s.contains 95 && !underscoreOK s then none
        else
          let intLen := ((run.takeWhile (fun b => b != 46)).filter (isMantDigit hex)).length
          let parts : FloatParts :=
            { neg := p.1, hex := hex, mant := mantValue (if hex then 16 else 10) digits,
              frac := digits.length - intLen, exp := e }
          if partsOverflow parts then none else some (FloatSyntax.finite parts)

/-- Model of Go's `strconv.ParseFloat(s, 64)`: `none` when Go returns a
non-nil error, otherwise the parsed value, finite values taken exactly. -/
def goParseFloat (s : GoStr) : Option GoFloat :=
  (goParseFloatSyntax s).map (fun f =>
    match f with
    | FloatSyntax.finite p => partsVal p
    | FloatSyntax.posInf => GoFloat.posInf
    | FloatSyntax.negInf => GoFloat.negInf
    | FloatSyntax.nan => GoFloat.nan)

/-- Model of Go's `strconv.Atoi` (`ParseInt(s, 10, 0)` on a 64-bit
platform): optional sign, one or more decimal digits, value within the
int64 range; `none` when Go returns an error. -/
def goAtoi (s : GoStr) : Option Int :=
  match s with
  | [] => none
  | _ =>
    let p := splitSign s
    if p.2.isEmpty || p.2.any (fun b => !isDigitB b) then none
    else
      let n : Nat := p.2.foldl (fun a b => a * 10 + (b - 48)) 0
      let v : Int := if p.1 then -(n : Int) else (n : Int)
      if v < -(2 ^ 63) || (2 ^ 63 - 1 : Int) < v then none else some v

/-! ## Data model (main.go v0.2.2) -/

/-- `UserConf` from main.go: the user configuration document. -/
structure UserConf where
  APIAccessToken : GoStr
  LoggingUserID : GoStr
deriving DecidableEq, Repr

/-- `Month` from main.go: one month's entry of the boards document.  The
Go `map[string]string` of days is modelled as an association list. -/
structure Month where
  BoardID : GoStr
  Days : List (GoStr × GoStr)
deriving DecidableEq, Repr

/-- `BoardsConf` from main.go: the boards configuration document. -/
structure BoardsConf where
  PersonColumnID : GoStr
  HoursColumnID : GoStr
  Description : GoStr
  Months : List (GoStr × Month)
deriving DecidableEq, Repr

/-- `MondayAPIClient` from error.go, without the transport: the identity
and column identifiers every request interpolates. -/
structure MondayAPIClient where
  loggingUserID : GoStr
  personColumnID : GoStr
  hoursColumnID : GoStr
deriving DecidableEq, Repr

/-- A column definition of a fetched `Board` (id and title). -/
structure BoardColumn where
  ID : GoStr
  Title : GoStr
deriving DecidableEq, Repr

/-- A group definition of a fetched `Board` (id and title). -/
structure BoardGroup where
  ID : GoStr
  Title : GoStr
deriving DecidableEq, Repr

/-- `Board` from error.go: a board fetched from the remote service. -/
structure Board where
  ID : GoStr
  Name : GoStr
  Columns : List BoardColumn
  Groups : List BoardGroup
deriving DecidableEq, Repr

/-- The `Group { Title }` sub-object of a fetched item. -/
structure ItemGroup where
  Title : GoStr
deriving DecidableEq, Repr

/-- One `Column_Values` entry of a fetched item. -/
structure ColumnValue where
  Text : GoStr
deriving DecidableEq, Repr

/-- `BoardItem` from error.go: one fetched pulse. -/
structure BoardItem where
  ID : GoStr
  Name : GoStr
  Group : ItemGroup
  Column_Values : List ColumnValue
deriving DecidableEq, Repr

/-- `GroupData` from `cliGetBoardItemSummary`: one row of the summary. -/
structure GroupData where
  Group : GoStr
  TotalHours : GoFloat
  PulseCount : Nat
deriving DecidableEq, Repr

/-! ## Remote API client (error.go v0.2.2)

Each client method takes the outcome of its remote call as an explicit
argument (`Except e a`: either the transport/service error or the decoded
response) and performs the response handling of the Go code.  An
out-of-range slice index is a Go runtime panic, kept distinct from a
returned error by the `crash` result. -/

/-- Result of running a piece of the program: a returned value, a
returned error message, or a runtime panic (index out of range). -/
inductive RunRes (α : Type) where
  | ok (a : α)
  | err (msg : GoStr)
  | crash
deriving DecidableEq, Repr

/-- The generic wrapped message for a failed remote query. -/
def msgMondayProblem : GoStr :=
  gs ("A problem occurred when contacting monday.com. Exiting.")

/-- The wrapped message for a failed creation mutation. -/
def msgMondayCreateProblem : GoStr :=
  gs ("A problem occurred when contacting monday.com. Please verify on monday.com whether a log entry was created or not. Exiting.")

/-- `GetBoardByID` from error.go: on query error, wrap it; on success,
return `&gbq.Boards[0]` — an unguarded index into the result slice. -/
def GetBoardByID (resp : Except GoStr (List Board)) : RunRes Board :=
  match resp with
  | Except.error _ => RunRes.err msgMondayProblem
  | Except.ok boards =>
    match boards with
    | b :: _ => RunRes.ok b
    | [] => RunRes.crash

/-- `GetPulseRelativeLink` from error.go: on query error, wrap it; on
success, return `&gprlq.PRL[0]` — an unguarded index into the items. -/
def GetPulseRelativeLink (resp : Except GoStr (List GoStr)) : RunRes GoStr :=
  match resp with
  | Except.error _ => RunRes.err msgMondayProblem
  | Except.ok prl =>
    match prl with
    | l :: _ => RunRes.ok l
    | [] => RunRes.crash

/-- The `column_values` JSON text built by `CreateLogItem`:
`\x7b"<person-column>":"<user-id>","<hours-column>":<hours>\x7d`, the
hours interpolated without quotes. -/
def columnValues (m : MondayAPIClient) (hours : GoStr) : GoStr :=
  gs ("\x7b\"") ++ m.personColumnID ++ gs ("\":\"") ++ m.loggingUserID ++ gs ("\",\"") ++
    m.hoursColumnID ++ gs ("\":") ++ hours ++ gs ("\x7d")

/-- The variables of the `create_item` mutation `CreateLogItem` issues. -/
structure CreateVars where
  board_id : Int
  group_id : GoStr
  item_name : GoStr
  column_values : GoStr
deriving DecidableEq, Repr

/-- What `CreateLogItem` does before its remote call completes: either it
rejects the hours locally (returning an error without any request), or it
issues the mutation with these variables. -/
inductive CreateOutcome where
  | reject (msg : GoStr)
  | request (vars : CreateVars)
deriving DecidableEq, Repr

/-- The parse-error message of `CreateLogItem` for non-numeric hours. -/
def msgHoursNotANumber (hours : GoStr) : GoStr :=
  gs ("hours = ") ++ hours ++ gs (" (third arg): unable to parse hours as a number. Exiting.")

/-- `CreateLogItem` from error.go, up to the request boundary: validate
`hours` with `strconv.ParseFloat`; on failure, return the parse error (no
request); on success, issue the mutation with the interpolated
`column_values`. -/
def CreateLogItem (m : MondayAPIClient) (boardID : Int) (groupID itemName hours : GoStr) :
    CreateOutcome :=
  match goParseFloat hours with
  | none => CreateOutcome.reject (msgHoursNotANumber hours)
  | some _ =>
    CreateOutcome.request
      { board_id := boardID, group_id := groupID, item_name := itemName,
        column_values := columnValues m hours }

/-! ## create-one (main.go v0.2.2) -/

/-- `msgMonthBoardIDNotFound` from main.go, with the month interpolated. -/
def msgMonthBoardIDNotFound (month : GoStr) : GoStr :=
  gs ("\"months.") ++ month ++ gs (".board_id\": not found in boards configuration. Exiting.")

/-- `msgDayGroupNotFound` from main.go, with month and day interpolated
(the format string really says `month.` in the singular). -/
def msgDayGroupNotFound (month day : GoStr) : GoStr :=
  gs ("\"month.") ++ month ++ gs (".days.") ++ day ++ gs ("\": not found in boards configuration. Exiting.")

/-- The malformed-date message of `createOne`. -/
def msgDayBadFormat (day : GoStr) : GoStr :=
  gs ("day = ") ++ day ++ gs (" (first arg): provided day is not in format yyyy-mm-dd. Exiting.")

/-- The non-numeric `board_id` message of `createOne`. -/
def msgBoardIDNotANumber (month : GoStr) : GoStr :=
  gs ("\"months.") ++ month ++ gs (".board_id\": not a number. Exiting.")

/-- Result of `createOne` up to its remote call: a returned error, or the
`create_item` mutation that gets submitted. -/
inductive CreateOneResult where
  | error (msg : GoStr)
  | submitted (vars : CreateVars)
deriving DecidableEq, Repr

/-- `createOne` from main.go v0.2.2: validate the 10-byte date, look up
the month under the first 7 bytes, parse its `board_id` with
`strconv.Atoi`, look up the group under bytes 7..10 of the date, and call
`CreateLogItem`. -/
def createOne (m : MondayAPIClient) (boardsConf : BoardsConf) (dayYYYYMMDD itemName hours : GoStr) :
    CreateOneResult :=
  if dayYYYYMMDD.length ≠ 10 then CreateOneResult.error (msgDayBadFormat dayYYYYMMDD)
  else
    let monthYYYYMM := dayYYYYMMDD.take 7
    if boardsConf.Months = [] then CreateOneResult.error (msgMonthBoardIDNotFound monthYYYYMM)
    else
      match lookupA boardsConf.Months monthYYYYMM with
      | none => CreateOneResult.error (msgMonthBoardIDNotFound monthYYYYMM)
      | some month =>
        if month.BoardID = [] then CreateOneResult.error (msgMonthBoardIDNotFound monthYYYYMM)
        else
          match goAtoi month.BoardID with
          | none => CreateOneResult.error (msgBoardIDNotANumber monthYYYYMM)
          | some boardIDInt =>
            let dayDD := (dayYYYYMMDD.drop 7).take 3
            if month.Days = [] then CreateOneResult.error (msgDayGroupNotFound monthYYYYMM dayDD)
            else
              let dayGroupID := (lookupA month.Days dayDD).getD []
              if dayGroupID = [] then CreateOneResult.error (msgDayGroupNotFound monthYYYYMM dayDD)
              else
                match CreateLogItem m boardIDInt dayGroupID itemName hours with
                | CreateOutcome.reject msg => CreateOneResult.error msg
                | CreateOutcome.request vars => CreateOneResult.submitted vars

/-! ## Sorting and tables (main.go v0.2.2) -/

/-- The comparator `cliGetBoardItems` passes to `slices.SortFunc`: when
both group titles are 10 bytes long, compare title bytes 8 then 9; on a
tie (or when either title is not 10 bytes), compare the item IDs. -/
def itemCompare (a b : BoardItem) : Int :=
  let aGroup := a.Group.Title
  let bGroup := b.Group.Title
  if aGroup.length = 10 ∧ bGroup.length = 10 then
    if bGroup.getD 8 0 < aGroup.getD 8 0 then 1
    else if aGroup.getD 8 0 < bGroup.getD 8 0 then -1
    else if bGroup.getD 9 0 < aGroup.getD 9 0 then 1
    else if aGroup.getD 9 0 < bGroup.getD 9 0 then -1
    else goCmpStr a.ID b.ID
  else goCmpStr a.ID b.ID

/-- The comparator `cliGetBoardItemSummary` passes to `slices.SortFunc`:
same byte-8/byte-9 scheme, but the fallback compares the group titles. -/
def summaryCompare (a b : GroupData) : Int :=
  let aGroup := a.Group
  let bGroup := b.Group
  if aGroup.length = 10 ∧ bGroup.length = 10 then
    if bGroup.getD 8 0 < aGroup.getD 8 0 then 1
    else if aGroup.getD 8 0 < bGroup.getD 8 0 then -1
    else if bGroup.getD 9 0 < aGroup.getD 9 0 then 1
    else if aGroup.getD 9 0 < bGroup.getD 9 0 then -1
    else goCmpStr aGroup bGroup
  else goCmpStr aGroup bGroup

/-- Insert into a sorted list (`le x y`: `x` may come before `y`). -/
def insertBy {α : Type} (le : α → α → Bool) (x : α) : List α → List α
  | [] => [x]
  | y :: ys => if le x y then x :: y :: ys else y :: insertBy le x ys

/-- Insertion sort by a boolean comparison, the model of
`slices.SortFunc`: the result is a permutation ordered by the comparator
(Go's sort is unstable; ties are broken arbitrarily there and
deterministically here). -/
def sortBy {α : Type} (le : α → α → Bool) : List α → List α
  | [] => []
  | x :: xs => insertBy le x (sortBy le xs)

/-- `slices.SortFunc` on the fetched items. -/
def sortItems (items : List BoardItem) : List BoardItem :=
  sortBy (fun a b => itemCompare a b ≤ 0) items

/-- `slices.SortFunc` on the summary rows. -/
def sortGroups (groups : List GroupData) : List GroupData :=
  sortBy (fun a b => summaryCompare a b ≤ 0) groups

/-- The printed rows of the `get-board-items` table, one per item:
`(group title, hours text, description, pulse id)` — `none` when some
item has no column value, so that `item.Column_Values[0]` panics. -/
def itemRows : List BoardItem → Option (List (GoStr × GoStr × GoStr × GoStr))
  | [] => some []
  | it :: rest =>
    match it.Column_Values with
    | [] => none
    | cv :: _ => (itemRows rest).map (fun rs => (it.Group.Title, cv.Text, it.Name, it.ID) :: rs)

/-- `cliGetBoardItems` from its fetched items onward: sort, then print
the four-column table row by row (`Column_Values[0]` may panic). -/
def cliGetBoardItems (items : List BoardItem) : RunRes (List (GoStr × GoStr × GoStr × GoStr)) :=
  match itemRows (sortItems items) with
  | none => RunRes.crash
  | some rows => RunRes.ok rows

/-! ## get-board-item-summary (main.go v0.2.2) -/

/-- The abort message of `cliGetBoardItemSummary` for a non-numeric hours
text, naming the text and the pulse id. -/
def msgSummaryNotANumber (text pulseID : GoStr) : GoStr :=
  gs ("hours = ") ++ text ++ gs (" (pulse_id = ") ++ pulseID ++ gs ("): not a number. Exiting.")

/-- `groupMap[title]` with Go's zero value for an absent key
(`TotalHours` starts at the double `0.0`). -/
def mGet (m : List (GoStr × GoFloat × Nat)) (k : GoStr) : GoFloat × Nat :=
  (lookupA m k).getD (GoFloat.fin 0 0, 0)

/-- `groupMap[title] = gd`: replace the entry in place, or add it. -/
def mSet : List (GoStr × GoFloat × Nat) → GoStr → GoFloat × Nat → List (GoStr × GoFloat × Nat)
  | [], k, v => [(k, v)]
  | (k', v') :: t, k, v => if k' == k then (k, v) :: t else (k', v') :: mSet t k v

/-- Float64 addition on parsed hours values: `inf`/`nan` follow IEEE 754
propagation, finite values add exactly and round back to a double
(`f64add`), exactly as the program's `+=` does. -/
def goFloatAdd : GoFloat → GoFloat → GoFloat
  | GoFloat.nan, _ => GoFloat.nan
  | _, GoFloat.nan => GoFloat.nan
  | GoFloat.posInf, GoFloat.negInf => GoFloat.nan
  | GoFloat.negInf, GoFloat.posInf => GoFloat.nan
  | GoFloat.posInf, _ => GoFloat.posInf
  | _, GoFloat.posInf => GoFloat.posInf
  | GoFloat.negInf, _ => GoFloat.negInf
  | _, GoFloat.negInf => GoFloat.negInf
  | GoFloat.fin m1 e1, GoFloat.fin m2 e2 => f64add m1 e1 m2 e2

/-- The aggregation loop of `cliGetBoardItemSummary`: for each item,
parse `Column_Values[0].Text` (panicking if the slice is empty, aborting
with the not-a-number error if the parse fails), then accumulate hours
and pulse count in the group map. -/
def buildGroupMap : List BoardItem → List (GoStr × GoFloat × Nat) →
    RunRes (List (GoStr × GoFloat × Nat))
  | [], m => RunRes.ok m
  | it :: rest, m =>
    match it.Column_Values with
    | [] => RunRes.crash
    | cv :: _ =>
      match goParseFloat cv.Text with
      | none => RunRes.err (msgSummaryNotANumber cv.Text it.ID)
      | some hours =>
        let gd := mGet m it.Group.Title
        buildGroupMap rest (mSet m it.Group.Title (goFloatAdd gd.1 hours, gd.2 + 1))

/-- The `groups` slice built from the group map (`gd.Group = gKey`). -/
def groupsOf (m : List (GoStr × GoFloat × Nat)) : List GroupData :=
  m.map (fun p => { Group := p.1, TotalHours := p.2.1, PulseCount := p.2.2 })

/-- `cliGetBoardItemSummary` from its fetched items onward: aggregate per
group, then sort and print the three-column table. -/
def cliGetBoardItemSummary (items : List BoardItem) : RunRes (List GroupData) :=
  match buildGroupMap items [] with
  | RunRes.crash => RunRes.crash
  | RunRes.err msg => RunRes.err msg
  | RunRes.ok m => RunRes.ok (sortGroups (groupsOf m))

/-! ## update (main.go v0.2.2)

`cliUpdate` downloads the boards document over HTTP into
`boards.toml.tmp` and renames the temporary file over `boards.toml` as
the final step.  The file system is two file contents; the download is an
oracle: either `http.Get` fails, or `os.Create` fails, or `io.Copy`
transfers a sequence of chunks and then reports success (EOF) or an error
(for instance a truncated body). -/

/-- The two files `cliUpdate` touches: the boards document and its
temporary sibling (`none`: the file does not exist). -/
structure FS where
  real : Option GoStr
  tmp : Option GoStr
deriving DecidableEq, Repr

/-- Outcome of the external steps of `cliUpdate`. -/
inductive UpdateOutcome where
  | getErr
  | createErr
  | copy (chunks : List GoStr) (ok : Bool)
deriving DecidableEq, Repr

/-- Whether `cliUpdate` returned an error or completed. -/
inductive UStatus where
  | error
  | success
deriving DecidableEq, Repr

/-- `cliUpdate` from main.go v0.2.2: `http.Get`; `os.Create` of the
`.tmp` file (truncating it); `io.Copy` of the body into it; only when the
copy finished without error, close and `os.Rename` the `.tmp` file over
the boards document. -/
def cliUpdate (fs : FS) (o : UpdateOutcome) : FS × UStatus :=
  match o with
  | UpdateOutcome.getErr => (fs, UStatus.error)
  | UpdateOutcome.createErr => (fs, UStatus.error)
  | UpdateOutcome.copy chunks ok =>
    let written := chunks.flatten
    let fs1 : FS := { fs with tmp := some written }
    if ok then ({ real := some written, tmp := none }, UStatus.success)
    else (fs1, UStatus.error)

/-! ## setup (main.go v0.2.2)

`cliSetup` prints a line-by-line report.  Its two file loads are oracles
(`none`: `loadTOML` failed); the printed lines and the returned error are
the result. -/

/-- The setup report lines (exact printed text). -/
def lineUserPath (p : GoStr) : GoStr := gs ("User configuration path:   ") ++ p

/-- "unable to parse" report line. -/
def lineUnableToParse : GoStr := gs ("❌ Unable to parse file (missing or incorrectly formatted)")

/-- Missing `api_access_token` report line. -/
def lineMissingToken : GoStr := gs ("❌ Missing api_access_token")

/-- Missing `logging_user_id` report line. -/
def lineMissingUserID : GoStr := gs ("❌ Missing logging_user_id")

/-- Valid-file report line. -/
def lineFileValid : GoStr := gs ("✅ File is valid")

/-- Boards-skipped report line. -/
def lineSkippingBoards : GoStr := gs ("(skipping boards configuration)")

/-- Boards path report line. -/
def lineBoardsPath (p : GoStr) : GoStr := gs ("Boards configuration path: ") ++ p

/-- Missing `person_column_id` report line. -/
def lineMissingPersonColumn : GoStr := gs ("❌ Missing person_column_id")

/-- Missing `hours_column_id` report line. -/
def lineMissingHoursColumn : GoStr := gs ("❌ Missing hours_column_id")

/-- Description report line. -/
def lineDescription (d : GoStr) : GoStr := gs ("✅ Description: ") ++ d

/-- Final success report line. -/
def lineSetupComplete : GoStr := gs ("Setup complete without errors.")

/-- The error returned when the user document fails validation. -/
def msgUserConfInvalid : GoStr :=
  gs ("The user configuration has one or more validation errors.\nRefer to github.com/denis-engcom/mlog - config.example.toml for how to configure the file properly.")

/-- The error returned when the boards document fails validation. -/
def msgBoardsConfInvalid : GoStr :=
  gs ("The boards configuration has one or more validation errors.\nRun `mlog update` to fetch the latest board configuration.")

/-- `cliSetup` from main.go v0.2.2: validate the user document; when it
is invalid, report, skip the boards document and return the user error;
otherwise validate and report the boards document.  Returns the printed
lines and the returned error (`none` on success). -/
def cliSetup (userPath boardsPath : GoStr) (u : Option UserConf) (b : Option BoardsConf) :
    List GoStr × Option GoStr :=
  let userOut := [lineUserPath userPath]
  match u with
  | none =>
    (userOut ++ [lineUnableToParse, lineMissingToken, lineMissingUserID, lineSkippingBoards],
      some msgUserConfInvalid)
  | some uc =>
    if uc.APIAccessToken ≠ [] ∧ uc.LoggingUserID ≠ [] then
      let boardsOut := userOut ++ [lineFileValid, lineBoardsPath boardsPath]
      match b with
      | none =>
        (boardsOut ++ [lineUnableToParse, lineMissingPersonColumn, lineMissingHoursColumn],
          some msgBoardsConfInvalid)
      | some bc =>
        let fieldLines :=
          if bc.PersonColumnID ≠ [] ∧ bc.HoursColumnID ≠ [] then [lineFileValid]
          else
            (if bc.PersonColumnID = [] then [lineMissingPersonColumn] else []) ++
              (if bc.HoursColumnID = [] then [lineMissingHoursColumn] else [])
        let descLines := if bc.Description ≠ [] then [lineDescription bc.Description] else []
        if bc.PersonColumnID ≠ [] ∧ bc.HoursColumnID ≠ [] then
          (boardsOut ++ fieldLines ++ descLines ++ [lineSetupComplete], none)
        else
          (boardsOut ++ fieldLines ++ descLines, some msgBoardsConfInvalid)
    else
      let fieldLines :=
        (if uc.APIAccessToken = [] then [lineMissingToken] else []) ++
          (if uc.LoggingUserID = [] then [lineMissingUserID] else [])
      (userOut ++ fieldLines ++ [lineSkippingBoards], some msgUserConfInvalid)

/-! ## Statement helpers -/

/-- A JSON string literal: the text between double quotes. -/
def jsonString (s : GoStr) : GoStr := gs ("\"") ++ s ++ gs ("\"")

/-- Modelled from the spec's words for the creation payload: a JSON
object with exactly two members — the person column mapped to the user
identifier as a quoted JSON string, and the hours column mapped to the
hours text inserted unquoted (as a JSON number). -/
def specColumnValues (person user hoursCol hours : GoStr) : GoStr :=
  gs ("\x7b") ++ jsonString person ++ gs (":") ++ jsonString user ++ gs (",") ++
    jsonString hoursCol ++ gs (":") ++ hours ++ gs ("\x7d")

/-- The last two characters of two 10-byte titles, compared
character-by-character (the spec's description of the day-suffix order). -/
def cmpLast2 (x y : GoStr) : Int := goCmpStr (x.drop 8) (y.drop 8)

/-- The parsed hours of an item: `Column_Values[0].Text` fed to
`ParseFloat` (`none` when the slice is empty or the text does not parse). -/
def itemHours (x : BoardItem) : Option GoFloat :=
  x.Column_Values.head?.bind (fun cv => goParseFloat cv.Text)

/-- The verbatim hours text of an item as the listing prints it. -/
def hoursText (x : BoardItem) : GoStr :=
  match x.Column_Values with
  | cv :: _ => cv.Text
  | [] => []

/-! ## Helper lemmas -/

theorem lookupA_ne_nil {α : Type} {m : List (GoStr × α)} {k : GoStr} {v : α}
    (h : lookupA m k = some v) : m ≠ [] := by
  intro h'
  subst h'
  simp [lookupA] at h

theorem goAtoi_ne_nil {s : GoStr} {n : Int} (h : goAtoi s = some n) : s ≠ [] := by
  intro h'
  subst h'
  simp [goAtoi] at h

theorem take_three_drop_seven {l : GoStr} (h : l.length = 10) :
    (l.drop 7).take 3 = l.drop 7 := by
  apply List.take_of_length_le
  simp [h]

theorem mem_insertBy {α : Type} {le : α → α → Bool} {x a : α} {l : List α} :
    a ∈ insertBy le x l ↔ a = x ∨ a ∈ l := by
  induction l with
  | nil => simp [insertBy]
  | cons y ys ih =>
    by_cases h : le x y
    · simp [insertBy, h]
    · simp [insertBy, h, ih]
      tauto

theorem mem_sortBy {α : Type} {le : α → α → Bool} {a : α} {l : List α} :
    a ∈ sortBy le l ↔ a ∈ l := by
  induction l with
  | nil => simp [sortBy]
  | cons y ys ih => simp [sortBy, mem_insertBy, ih]

theorem lookupA_nil {α : Type} (k : GoStr) : lookupA ([] : List (GoStr × α)) k = none := rfl

theorem lookupA_cons {α : Type} (k' : GoStr) (v' : α) (rest : List (GoStr × α)) (k : GoStr) :
    lookupA ((k', v') :: rest) k = if k' = k then some v' else lookupA rest k := by
  by_cases h : k' = k
  · simp [lookupA, List.find?, h]
  · have hb : (k' == k) = false := by simpa using h
    simp [lookupA, List.find?, hb, h]

theorem mGet_cons (k' : GoStr) (v' : GoFloat × Nat) (rest : List (GoStr × GoFloat × Nat))
    (t : GoStr) : mGet ((k', v') :: rest) t = if k' = t then v' else mGet rest t := by
  simp only [mGet, lookupA_cons]
  by_cases h : k' = t <;> simp [h]

theorem mGet_mSet (m : List (GoStr × GoFloat × Nat)) (k t : GoStr) (v : GoFloat × Nat) :
    mGet (mSet m k v) t = if k = t then v else mGet m t := by
  induction m with
  | nil =>
    simp only [mSet, mGet_cons]
  | cons p rest ih =>
    rcases p with ⟨k', v'⟩
    by_cases hpk : k' = k
    · have hs : mSet ((k', v') :: rest) k v = (k, v) :: rest := by
        simp [mSet, hpk]
      rw [hs, mGet_cons, mGet_cons]
      by_cases h : k = t
      · simp [h]
      · rw [if_neg h, if_neg h, if_neg (fun hh => h (hpk.symm.trans hh))]
    · have hs : mSet ((k', v') :: rest) k v = (k', v') :: mSet rest k v := by
        simp [mSet, hpk]
      rw [hs, mGet_cons, mGet_cons]
      by_cases hpt : k' = t
      · have hkt : ¬ k = t := fun hh => hpk (hpt.trans hh.symm)
        simp [hpt, hkt]
      · simp [hpt, ih]

theorem buildGroupMap_fold :
    ∀ (items : List BoardItem) (m : List (GoStr × GoFloat × Nat)),
      (∀ x ∈ items, (itemHours x).isSome = true) →
      ∃ M, buildGroupMap items m = RunRes.ok M ∧
        ∀ t, mGet M t =
          (((items.filter (fun x => x.Group.Title == t)).map
              (fun x => (itemHours x).getD (GoFloat.fin 0 0))).foldl goFloatAdd (mGet m t).1,
            (mGet m t).2 + (items.filter (fun x => x.Group.Title == t)).length) := by
  intro items
  induction items with
  | nil =>
    intro m _
    exact ⟨m, rfl, fun t => by simp⟩
  | cons x rest ih =>
    intro m hall
    have hx := hall x (List.mem_cons_self x rest)
    cases hcv : x.Column_Values with
    | nil => simp [itemHours, hcv] at hx
    | cons cv cvs =>
      have hsome : (goParseFloat cv.Text).isSome = true := by
        simpa [itemHours, hcv] using hx
      obtain ⟨v, hv⟩ := Option.isSome_iff_exists.mp hsome
      obtain ⟨M, hM, hMt⟩ :=
        ih (mSet m x.Group.Title
            (goFloatAdd (mGet m x.Group.Title).1 v, (mGet m x.Group.Title).2 + 1))
          (fun y hy => hall y (List.mem_cons_of_mem x hy))
      have hval : (itemHours x).getD (GoFloat.fin 0 0) = v := by
        simp [itemHours, hcv, hv]
      refine ⟨M, ?_, fun t => ?_⟩
      · simpa [buildGroupMap, hcv, hv] using hM
      · rw [hMt t, mGet_mSet]
        by_cases ht : x.Group.Title = t
        · subst ht
          have hb : (x.Group.Title == x.Group.Title) = true := by simp
          rw [if_pos rfl]
          simp only [List.filter_cons, hb, if_pos, List.map_cons, List.length_cons, hval,
            List.foldl_cons, Prod.mk.injEq]
          exact ⟨trivial, by omega⟩
        · have hb : (x.Group.Title == t) = false := by simpa using ht
          simp [ht, hb, List.filter_cons]

theorem itemRows_spec (l : List BoardItem) (h : ∀ x ∈ l, x.Column_Values ≠ []) :
    itemRows l = some (l.map (fun x => (x.Group.Title, hoursText x, x.Name, x.ID))) := by
  induction l with
  | nil => rfl
  | cons x rest ih =>
    have hx := h x (List.mem_cons_self x rest)
    cases hcv : x.Column_Values with
    | nil => exact absurd hcv hx
    | cons cv cvs =>
      have hrest := ih (fun y hy => h y (List.mem_cons_of_mem x hy))
      simp [itemRows, hcv, hrest, hoursText]

theorem columnValues_eq_spec (m : MondayAPIClient) (hours : GoStr) :
    columnValues m hours = specColumnValues m.personColumnID m.loggingUserID m.hoursColumnID hours := by
  have h1 : gs ("\x7b\"") = [123, 34] := by decide
  have h2 : gs ("\":\"") = [34, 58, 34] := by decide
  have h3 : gs ("\",\"") = [34, 44, 34] := by decide
  have h4 : gs ("\":") = [34, 58] := by decide
  have h5 : gs ("\x7d") = [125] := by decide
  have h6 : gs ("\x7b") = [123] := by decide
  have h7 : gs ("\"") = [34] := by decide
  have h8 : gs (":") = [58] := by decide
  have h9 : gs (",") = [44] := by decide
  simp [columnValues, specColumnValues, jsonString, h1, h2, h3, h4, h5, h6, h7, h8, h9]

/-! ## Claim theorems -/

/-- C3: fetching a board by id either returns the first matching board or
wraps a remote-service failure in the monday.com problem message; but on
a successful response with an empty result set, `GetBoardByID` evaluates
`Boards[0]` unguarded and panics (index out of range) instead of
returning an error, and `GetPulseRelativeLink` does the same on an empty
items result. -/
theorem getBoard_empty_result_crashes :
    (∀ e, GetBoardByID (Except.error e) = RunRes.err msgMondayProblem) ∧
    (∀ b bs, GetBoardByID (Except.ok (b :: bs)) = RunRes.ok b) ∧
    GetBoardByID (Except.ok []) = RunRes.crash ∧
    (∀ e, GetPulseRelativeLink (Except.error e) = RunRes.err msgMondayProblem) ∧
    (∀ l ls, GetPulseRelativeLink (Except.ok (l :: ls)) = RunRes.ok l) ∧
    GetPulseRelativeLink (Except.ok []) = RunRes.crash :=
  ⟨fun _ => rfl, fun _ _ => rfl, rfl, fun _ => rfl, fun _ _ => rfl, rfl⟩

/-- C4: `CreateLogItem` validates the hours string with
`strconv.ParseFloat` before anything else: when the parse fails it
returns the parse error naming the offending value and issues no request;
when the parse succeeds it issues the mutation; `"abc"` fails the parse
while `"2.5"` and `"3"` pass it. -/
theorem CreateLogItem_validates_hours :
    (∀ (m : MondayAPIClient) (boardID : Int) (groupID itemName hours : GoStr),
      goParseFloat hours = none →
      CreateLogItem m boardID groupID itemName hours =
        CreateOutcome.reject (msgHoursNotANumber hours)) ∧
    (∀ (m : MondayAPIClient) (boardID : Int) (groupID itemName hours : GoStr),
      goParseFloat hours ≠ none →
      CreateLogItem m boardID groupID itemName hours =
        CreateOutcome.request
          { board_id := boardID, group_id := groupID, item_name := itemName,
            column_values := columnValues m hours }) ∧
    goParseFloat (gs ("abc")) = none ∧
    (goParseFloat (gs ("2.5"))).isSome = true ∧
    (goParseFloat (gs ("3"))).isSome = true := by
  refine ⟨?_, ?_, by decide, by decide, by decide⟩
  · intro m boardID groupID itemName hours h
    simp [CreateLogItem, h]
  · intro m boardID groupID itemName hours h
    obtain ⟨v, hv⟩ := Option.ne_none_iff_exists'.mp h
    simp [CreateLogItem, hv]

/-- Witness for C4 at hours `"abc"`: the parse fails and the call is
rejected with the message naming the value. -/
theorem CreateLogItem_validates_hours_witness :
    goParseFloat (gs ("abc")) = none ∧
    CreateLogItem ⟨gs ("u1"), gs ("pc"), gs ("hc")⟩ 5 (gs ("g")) (gs ("desc")) (gs ("abc")) =
      CreateOutcome.reject (msgHoursNotANumber (gs ("abc"))) :=
  ⟨by decide, CreateLogItem_validates_hours.1 ⟨gs ("u1"), gs ("pc"), gs ("hc")⟩ 5 (gs ("g"))
    (gs ("desc")) (gs ("abc")) (by decide)⟩

/-- C9: for valid hours, the submitted `column_values` payload is the
two-member JSON object mapping the person column to the quoted
logging-user identifier and the hours column to the hours text inserted
unquoted. -/
theorem CreateLogItem_payload (m : MondayAPIClient) (boardID : Int)
    (groupID itemName hours : GoStr) (h : goParseFloat hours ≠ none) :
    CreateLogItem m boardID groupID itemName hours =
      CreateOutcome.request
        { board_id := boardID, group_id := groupID, item_name := itemName,
          column_values :=
            specColumnValues m.personColumnID m.loggingUserID m.hoursColumnID hours } := by
  obtain ⟨v, hv⟩ := Option.ne_none_iff_exists'.mp h
  simp [CreateLogItem, hv, columnValues_eq_spec]

/-- Witness for C9 at hours `"2.5"` and concrete identifiers. -/
theorem CreateLogItem_payload_witness :
    goParseFloat (gs ("2.5")) ≠ none ∧
    CreateLogItem ⟨gs ("u7"), gs ("p1"), gs ("h2")⟩ 9 (gs ("g")) (gs ("work")) (gs ("2.5")) =
      CreateOutcome.request
        { board_id := 9, group_id := gs ("g"), item_name := gs ("work"),
          column_values :=
            specColumnValues (gs ("p1")) (gs ("u7")) (gs ("h2")) (gs ("2.5")) } :=
  ⟨by decide, CreateLogItem_payload ⟨gs ("u7"), gs ("p1"), gs ("h2")⟩ 9 (gs ("g")) (gs ("work"))
    (gs ("2.5")) (by decide)⟩

/-- C6: the update never replaces the boards document with a partial
download: a copy that fails mid-body leaves the document byte-for-byte
unchanged and returns an error; the document changes only through a
successful full copy, and then it holds exactly the downloaded body; a
failed `http.Get` or `os.Create` also leaves it unchanged. -/
theorem cliUpdate_atomic :
    (∀ fs chunks,
      cliUpdate fs (UpdateOutcome.copy chunks false) =
        ({ fs with tmp := some chunks.flatten }, UStatus.error) ∧
      (cliUpdate fs (UpdateOutcome.copy chunks false)).1.real = fs.real) ∧
    (∀ fs o, (cliUpdate fs o).1.real ≠ fs.real →
      ∃ chunks, o = UpdateOutcome.copy chunks true ∧
        (cliUpdate fs o).1.real = some chunks.flatten ∧
        (cliUpdate fs o).2 = UStatus.success) ∧
    (∀ fs chunks,
      cliUpdate fs (UpdateOutcome.copy chunks true) =
        ({ real := some chunks.flatten, tmp := none }, UStatus.success)) ∧
    (∀ fs, cliUpdate fs UpdateOutcome.getErr = (fs, UStatus.error) ∧
      cliUpdate fs UpdateOutcome.createErr = (fs, UStatus.error)) := by
  refine ⟨fun fs chunks => ⟨rfl, rfl⟩, ?_, fun fs chunks => rfl, fun fs => ⟨rfl, rfl⟩⟩
  intro fs o h
  cases o with
  | getErr => exact absurd rfl h
  | createErr => exact absurd rfl h
  | copy chunks ok =>
    cases ok with
    | false => exact absurd rfl h
    | true => exact ⟨chunks, rfl, rfl, rfl⟩

/-- Witness for C6: starting from an existing document `"old"`, a
successful two-chunk download replaces it with the full body. -/
theorem cliUpdate_atomic_witness :
    (cliUpdate ⟨some (gs ("old")), none⟩ (UpdateOutcome.copy [gs ("ab"), gs ("c")] true)).1.real ≠
      (⟨some (gs ("old")), none⟩ : FS).real ∧
    ∃ chunks, UpdateOutcome.copy [gs ("ab"), gs ("c")] true = UpdateOutcome.copy chunks true ∧
      (cliUpdate ⟨some (gs ("old")), none⟩ (UpdateOutcome.copy [gs ("ab"), gs ("c")] true)).1.real =
        some chunks.flatten ∧
      (cliUpdate ⟨some (gs ("old")), none⟩ (UpdateOutcome.copy [gs ("ab"), gs ("c")] true)).2 =
        UStatus.success :=
  ⟨by decide, cliUpdate_atomic.2.1 ⟨some (gs ("old")), none⟩
    (UpdateOutcome.copy [gs ("ab"), gs ("c")] true) (by decide)⟩

/-- C1: for a 10-byte date whose month (under the first 7 bytes) and day
key are mapped, create-one submits exactly the configured board id
(parsed from `months.<yyyy-mm>.board_id`) and the configured group id;
an unmapped (or empty-board-id) month fails with the message naming that
month, and an unmapped (or empty) day key fails with the message naming
the month and the day key — never a default. -/
theorem createOne_resolution :
    (∀ (m : MondayAPIClient) (conf : BoardsConf) (day itemName hours : GoStr)
      (month : Month) (n : Int) (g : GoStr),
      day.length = 10 →
      lookupA conf.Months (day.take 7) = some month →
      goAtoi month.BoardID = some n →
      lookupA month.Days ((day.drop 7).take 3) = some g → g ≠ [] →
      (goParseFloat hours).isSome = true →
      createOne m conf day itemName hours =
        CreateOneResult.submitted
          { board_id := n, group_id := g, item_name := itemName,
            column_values := columnValues m hours }) ∧
    (∀ (m : MondayAPIClient) (conf : BoardsConf) (day itemName hours : GoStr),
      day.length = 10 →
      (lookupA conf.Months (day.take 7) = none ∨
        (∃ month, lookupA conf.Months (day.take 7) = some month ∧ month.BoardID = [])) →
      createOne m conf day itemName hours =
        CreateOneResult.error (msgMonthBoardIDNotFound (day.take 7))) ∧
    (∀ (m : MondayAPIClient) (conf : BoardsConf) (day itemName hours : GoStr)
      (month : Month) (n : Int),
      day.length = 10 →
      lookupA conf.Months (day.take 7) = some month →
      goAtoi month.BoardID = some n →
      (lookupA month.Days ((day.drop 7).take 3)).getD [] = [] →
      createOne m conf day itemName hours =
        CreateOneResult.error (msgDayGroupNotFound (day.take 7) ((day.drop 7).take 3))) := by
  refine ⟨?_, ?_, ?_⟩
  · intro m conf day itemName hours month n g h10 hm hn hg hgne hp
    obtain ⟨v, hv⟩ := Option.isSome_iff_exists.mp hp
    simp [createOne, h10, lookupA_ne_nil hm, hm, goAtoi_ne_nil hn, hn, lookupA_ne_nil hg, hg,
      hgne, CreateLogItem, hv]
  · intro m conf day itemName hours h10 hm
    rcases hm with hm | ⟨month, hm, hb⟩
    · by_cases hM : conf.Months = [] <;> simp [createOne, h10, hm, hM]
    · simp [createOne, h10, lookupA_ne_nil hm, hm, hb]
  · intro m conf day itemName hours month n h10 hm hn hgd
    by_cases hD : month.Days = []
    · simp [createOne, h10, lookupA_ne_nil hm, hm, goAtoi_ne_nil hn, hn, hD]
    · simp [createOne, h10, lookupA_ne_nil hm, hm, goAtoi_ne_nil hn, hn, hD, hgd]

/-- Witness for C1: a concrete configuration mapping month `2024-04` to
board `123` and day key `-01` to group `g1`; resolution succeeds on
`2024-04-01`, the unmapped month `2024-05` fails naming it, and the
unmapped day `2024-04-02` fails naming month and day key. -/
theorem createOne_resolution_witness :
    (createOne ⟨gs ("u"), gs ("pc"), gs ("hc")⟩
        ⟨gs ("pc"), gs ("hc"), [], [(gs ("2024-04"), ⟨gs ("123"), [(gs ("-01"), gs ("g1"))]⟩)]⟩
        (gs ("2024-04-01")) (gs ("work")) (gs ("2.5")) =
      CreateOneResult.submitted
        { board_id := 123, group_id := gs ("g1"), item_name := gs ("work"),
          column_values := columnValues ⟨gs ("u"), gs ("pc"), gs ("hc")⟩ (gs ("2.5")) }) ∧
    (createOne ⟨gs ("u"), gs ("pc"), gs ("hc")⟩
        ⟨gs ("pc"), gs ("hc"), [], [(gs ("2024-04"), ⟨gs ("123"), [(gs ("-01"), gs ("g1"))]⟩)]⟩
        (gs ("2024-05-01")) (gs ("work")) (gs ("2.5")) =
      CreateOneResult.error (msgMonthBoardIDNotFound ((gs ("2024-05-01")).take 7))) ∧
    (createOne ⟨gs ("u"), gs ("pc"), gs ("hc")⟩
        ⟨gs ("pc"), gs ("hc"), [], [(gs ("2024-04"), ⟨gs ("123"), [(gs ("-01"), gs ("g1"))]⟩)]⟩
        (gs ("2024-04-02")) (gs ("work")) (gs ("2.5")) =
      CreateOneResult.error
        (msgDayGroupNotFound ((gs ("2024-04-02")).take 7) (((gs ("2024-04-02")).drop 7).take 3))) :=
  ⟨createOne_resolution.1 ⟨gs ("u"), gs ("pc"), gs ("hc")⟩
      ⟨gs ("pc"), gs ("hc"), [], [(gs ("2024-04"), ⟨gs ("123"), [(gs ("-01"), gs ("g1"))]⟩)]⟩
      (gs ("2024-04-01")) (gs ("work")) (gs ("2.5")) ⟨gs ("123"), [(gs ("-01"), gs ("g1"))]⟩
      123 (gs ("g1")) (by decide) (by decide) (by decide) (by decide) (by decide) (by decide),
    createOne_resolution.2.1 ⟨gs ("u"), gs ("pc"), gs ("hc")⟩
      ⟨gs ("pc"), gs ("hc"), [], [(gs ("2024-04"), ⟨gs ("123"), [(gs ("-01"), gs ("g1"))]⟩)]⟩
      (gs ("2024-05-01")) (gs ("work")) (gs ("2.5")) (by decide) (Or.inl (by decide)),
    createOne_resolution.2.2 ⟨gs ("u"), gs ("pc"), gs ("hc")⟩
      ⟨gs ("pc"), gs ("hc"), [], [(gs ("2024-04"), ⟨gs ("123"), [(gs ("-01"), gs ("g1"))]⟩)]⟩
      (gs ("2024-04-02")) (gs ("work")) (gs ("2.5")) ⟨gs ("123"), [(gs ("-01"), gs ("g1"))]⟩
      123 (by decide) (by decide) (by decide) (by decide)⟩

/-- C2 counterexample: in a configuration whose April 2024 days map binds
the two-character key `01` (the last two characters of `2024-04-01`),
create-one still fails: the code looks the day up under the three-byte
key `-01` (bytes 7..10 of the date), not under the last two characters. -/
theorem createOne_dayKey_counterexample :
    lookupA ([(gs ("01"), gs ("g1"))]) (gs ("01")) = some (gs ("g1")) ∧
    (gs ("2024-04-01")).drop 8 = gs ("01") ∧
    createOne ⟨gs ("u"), gs ("pc"), gs ("hc")⟩
        ⟨gs ("pc"), gs ("hc"), [], [(gs ("2024-04"), ⟨gs ("123"), [(gs ("01"), gs ("g1"))]⟩)]⟩
        (gs ("2024-04-01")) (gs ("work")) (gs ("2.5")) =
      CreateOneResult.error (msgDayGroupNotFound (gs ("2024-04")) (gs ("-01"))) := by
  exact ⟨by decide, by decide, by decide⟩

/-- C2 (amended): a date of byte length other than 10 fails with the
format error before any lookup (the result does not depend on the
configuration); for a 10-byte date the month key is the first 7 bytes and
the day key is the last **3** bytes — the hyphen plus the two-digit
day (`-dd`) — under which the day-to-group lookup is made. -/
theorem createOne_format_and_keys :
    (∀ (m : MondayAPIClient) (conf : BoardsConf) (day itemName hours : GoStr),
      day.length ≠ 10 →
      createOne m conf day itemName hours = CreateOneResult.error (msgDayBadFormat day)) ∧
    (∀ (m : MondayAPIClient) (conf : BoardsConf) (day itemName hours : GoStr)
      (month : Month) (n : Int) (g : GoStr),
      day.length = 10 →
      lookupA conf.Months (day.take 7) = some month →
      goAtoi month.BoardID = some n →
      lookupA month.Days (day.drop 7) = some g → g ≠ [] →
      (goParseFloat hours).isSome = true →
      createOne m conf day itemName hours =
        CreateOneResult.submitted
          { board_id := n, group_id := g, item_name := itemName,
            column_values := columnValues m hours }) := by
  constructor
  · intro m conf day itemName hours h
    simp [createOne, h]
  · intro m conf day itemName hours month n g h10 hm hn hg hgne hp
    rw [← take_three_drop_seven h10] at hg
    obtain ⟨v, hv⟩ := Option.isSome_iff_exists.mp hp
    simp [createOne, h10, lookupA_ne_nil hm, hm, goAtoi_ne_nil hn, hn, lookupA_ne_nil hg, hg,
      hgne, CreateLogItem, hv]

/-- Witness for C2 (amended): an 11-byte date fails with the format
error, and for `2024-04-01` the lookup under day key `-01` (the last
three bytes) resolves. -/
theorem createOne_format_and_keys_witness :
    ((gs ("2024-04-011")).length ≠ 10 ∧
      createOne ⟨gs ("u"), gs ("pc"), gs ("hc")⟩ ⟨gs ("pc"), gs ("hc"), [], []⟩
          (gs ("2024-04-011")) (gs ("work")) (gs ("2.5")) =
        CreateOneResult.error (msgDayBadFormat (gs ("2024-04-011")))) ∧
    createOne ⟨gs ("u"), gs ("pc"), gs ("hc")⟩
        ⟨gs ("pc"), gs ("hc"), [], [(gs ("2024-04"), ⟨gs ("123"), [(gs ("-01"), gs ("g1"))]⟩)]⟩
        (gs ("2024-04-01")) (gs ("work")) (gs ("2.5")) =
      CreateOneResult.submitted
        { board_id := 123, group_id := gs ("g1"), item_name := gs ("work"),
          column_values := columnValues ⟨gs ("u"), gs ("pc"), gs ("hc")⟩ (gs ("2.5")) } :=
  ⟨⟨by decide, createOne_format_and_keys.1 ⟨gs ("u"), gs ("pc"), gs ("hc")⟩
      ⟨gs ("pc"), gs ("hc"), [], []⟩ (gs ("2024-04-011")) (gs ("work")) (gs ("2.5")) (by decide)⟩,
    createOne_format_and_keys.2 ⟨gs ("u"), gs ("pc"), gs ("hc")⟩
      ⟨gs ("pc"), gs ("hc"), [], [(gs ("2024-04"), ⟨gs ("123"), [(gs ("-01"), gs ("g1"))]⟩)]⟩
      (gs ("2024-04-01")) (gs ("work")) (gs ("2.5")) ⟨gs ("123"), [(gs ("-01"), gs ("g1"))]⟩
      123 (gs ("g1")) (by decide) (by decide) (by decide) (by decide) (by decide) (by decide)⟩

theorem drop_eight_of_length_ten {l : GoStr} (h : l.length = 10) :
    l.drop 8 = [l.getD 8 0, l.getD 9 0] := by
  have h8 : 8 < l.length := by omega
  have h9 : 9 < l.length := by omega
  rw [List.drop_eq_getElem_cons h8, List.drop_eq_getElem_cons h9,
    List.drop_eq_nil_of_le (by omega), List.getD_eq_getElem l 0 h8, List.getD_eq_getElem l 0 h9]

theorem ifChain_eq (a8 a9 b8 b9 : Nat) (fb : Int) :
    (if b8 < a8 then (1 : Int) else if a8 < b8 then -1
      else if b9 < a9 then 1 else if a9 < b9 then -1 else fb) =
    (if goCmpStr [a8, a9] [b8, b9] = 0 then fb else goCmpStr [a8, a9] [b8, b9]) := by
  by_cases h1 : a8 < b8
  · have h2 : ¬ b8 < a8 := by omega
    simp [goCmpStr, h1, h2]
  · by_cases h2 : b8 < a8
    · simp [goCmpStr, h1, h2]
    · have he : a8 = b8 := by omega
      subst he
      by_cases h3 : a9 < b9
      · have h4 : ¬ b9 < a9 := by omega
        simp [goCmpStr, h3, h4]
      · by_cases h4 : b9 < a9
        · simp [goCmpStr, h3, h4]
        · have he2 : a9 = b9 := by omega
          subst he2
          simp [goCmpStr]

/-- C5 counterexample: with group titles `A` and `B` (not 10 characters),
whole-string title comparison puts `A` first, but the item comparator
instead falls back to comparing the pulse IDs (`2` vs `1`) and orders the
`A`-titled item after the `B`-titled one. -/
theorem itemCompare_fallback_counterexample :
    goCmpStr (gs ("A")) (gs ("B")) = -1 ∧
    itemCompare ⟨gs ("2"), gs ("x"), ⟨gs ("A")⟩, []⟩ ⟨gs ("1"), gs ("y"), ⟨gs ("B")⟩, []⟩ = 1 :=
  ⟨by decide, by decide⟩

/-- C5 (amended): when both titles are exactly 10 bytes the comparators
order by the last two characters compared character-by-character
(`cmpLast2`); on a tie, and when either title is not 10 bytes, the
summary comparator falls back to whole-title comparison but the item
comparator falls back to pulse-ID comparison.  Titles `Mon Apr 01`,
`Tue Apr 02`, `Fri Apr 10` sort in the order 01, 02, 10. -/
theorem comparator_day_suffix :
    (∀ a b : GroupData, a.Group.length = 10 → b.Group.length = 10 →
      summaryCompare a b =
        (if cmpLast2 a.Group b.Group = 0 then goCmpStr a.Group b.Group
          else cmpLast2 a.Group b.Group)) ∧
    (∀ a b : GroupData, ¬(a.Group.length = 10 ∧ b.Group.length = 10) →
      summaryCompare a b = goCmpStr a.Group b.Group) ∧
    (∀ a b : BoardItem, a.Group.Title.length = 10 → b.Group.Title.length = 10 →
      itemCompare a b =
        (if cmpLast2 a.Group.Title b.Group.Title = 0 then goCmpStr a.ID b.ID
          else cmpLast2 a.Group.Title b.Group.Title)) ∧
    (∀ a b : BoardItem, ¬(a.Group.Title.length = 10 ∧ b.Group.Title.length = 10) →
      itemCompare a b = goCmpStr a.ID b.ID) ∧
    sortGroups
        [⟨gs ("Fri Apr 10"), GoFloat.fin 1 0, 1⟩, ⟨gs ("Tue Apr 02"), GoFloat.fin 1 0, 1⟩,
          ⟨gs ("Mon Apr 01"), GoFloat.fin 1 0, 1⟩] =
      [⟨gs ("Mon Apr 01"), GoFloat.fin 1 0, 1⟩, ⟨gs ("Tue Apr 02"), GoFloat.fin 1 0, 1⟩,
        ⟨gs ("Fri Apr 10"), GoFloat.fin 1 0, 1⟩] := by
  refine ⟨?_, ?_, ?_, ?_, by decide⟩
  · intro a b ha hb
    rw [cmpLast2, drop_eight_of_length_ten ha, drop_eight_of_length_ten hb]
    simp only [summaryCompare]
    rw [if_pos ⟨ha, hb⟩]
    exact ifChain_eq _ _ _ _ _
  · intro a b h
    simp only [summaryCompare]
    rw [if_neg h]
  · intro a b ha hb
    rw [cmpLast2, drop_eight_of_length_ten ha, drop_eight_of_length_ten hb]
    simp only [itemCompare]
    rw [if_pos ⟨ha, hb⟩]
    exact ifChain_eq _ _ _ _ _
  · intro a b h
    simp only [itemCompare]
    rw [if_neg h]

/-- Witness for C5 (amended): two 10-byte titles whose day suffixes
differ are ordered by the suffix comparison. -/
theorem comparator_day_suffix_witness :
    ((gs ("Mon Apr 01")).length = 10 ∧ (gs ("Fri Apr 10")).length = 10) ∧
    itemCompare ⟨gs ("5"), gs ("x"), ⟨gs ("Mon Apr 01")⟩, []⟩
        ⟨gs ("6"), gs ("y"), ⟨gs ("Fri Apr 10")⟩, []⟩ =
      (if cmpLast2 (gs ("Mon Apr 01")) (gs ("Fri Apr 10")) = 0 then goCmpStr (gs ("5")) (gs ("6"))
        else cmpLast2 (gs ("Mon Apr 01")) (gs ("Fri Apr 10"))) :=
  ⟨⟨by decide, by decide⟩,
    comparator_day_suffix.2.2.1 ⟨gs ("5"), gs ("x"), ⟨gs ("Mon Apr 01")⟩, []⟩
      ⟨gs ("6"), gs ("y"), ⟨gs ("Fri Apr 10")⟩, []⟩ (by decide) (by decide)⟩

/-- C7 counterexample: with a user document whose `api_access_token` is
empty (and `logging_user_id` present) and a perfectly valid boards
document, setup prints only the missing-token line — no "present" report
for the other field — then skips the boards document entirely: the boards
path line, the valid-file line and the boards field reports never appear. -/
theorem cliSetup_skips_boards_counterexample :
    cliSetup (gs ("U")) (gs ("B")) (some ⟨[], gs ("u1")⟩)
        (some ⟨gs ("pc"), gs ("hc"), [], []⟩) =
      ([lineUserPath (gs ("U")), lineMissingToken, lineSkippingBoards], some msgUserConfInvalid) ∧
    lineBoardsPath (gs ("B")) ∉
      (cliSetup (gs ("U")) (gs ("B")) (some ⟨[], gs ("u1")⟩)
        (some ⟨gs ("pc"), gs ("hc"), [], []⟩)).1 ∧
    lineFileValid ∉
      (cliSetup (gs ("U")) (gs ("B")) (some ⟨[], gs ("u1")⟩)
        (some ⟨gs ("pc"), gs ("hc"), [], []⟩)).1 :=
  ⟨by decide, by decide, by decide⟩

/-- C7 (amended): when exactly one of the two required user fields is
empty, setup reports exactly that field as missing (printing no line for
the present field), prints the skipping-boards line instead of any boards
report, and returns the user-configuration validation error. -/
theorem cliSetup_one_missing_field :
    (∀ (up bp : GoStr) (b : Option BoardsConf) (user : GoStr), user ≠ [] →
      cliSetup up bp (some ⟨[], user⟩) b =
        ([lineUserPath up, lineMissingToken, lineSkippingBoards], some msgUserConfInvalid)) ∧
    (∀ (up bp : GoStr) (b : Option BoardsConf) (token : GoStr), token ≠ [] →
      cliSetup up bp (some ⟨token, []⟩) b =
        ([lineUserPath up, lineMissingUserID, lineSkippingBoards], some msgUserConfInvalid)) := by
  constructor
  · intro up bp b user hu
    simp [cliSetup, hu]
  · intro up bp b token ht
    simp [cliSetup, ht]

/-- Witness for C7 (amended) at a concrete user document missing only the
access token. -/
theorem cliSetup_one_missing_field_witness :
    (gs ("u1")) ≠ ([] : GoStr) ∧
    cliSetup (gs ("U")) (gs ("B")) (some ⟨[], gs ("u1")⟩) none =
      ([lineUserPath (gs ("U")), lineMissingToken, lineSkippingBoards], some msgUserConfInvalid) :=
  ⟨by decide, cliSetup_one_missing_field.1 (gs ("U")) (gs ("B")) none (gs ("u1")) (by decide)⟩

/-- C8 counterexample: items with hours texts `0.1` and `0.2` in group
`g` aggregate, as in the program, to the double `0.30000000000000004`
(`5404319552844596 · 2^-54`) — which is neither the exact sum of the two
parsed doubles nor the decimal sum `0.3`: float64 accumulation rounds,
so the total does not equal "the sum of that group's hours values". -/
theorem summary_rounding_counterexample :
    buildGroupMap
        [⟨gs ("1"), gs ("a"), ⟨gs ("g")⟩, [⟨gs ("0.1")⟩]⟩,
          ⟨gs ("2"), gs ("b"), ⟨gs ("g")⟩, [⟨gs ("0.2")⟩]⟩] [] =
      RunRes.ok [(gs ("g"), GoFloat.fin 5404319552844596 (-54), 2)] ∧
    goParseFloat (gs ("0.1")) = some (GoFloat.fin 7205759403792794 (-56)) ∧
    goParseFloat (gs ("0.2")) = some (GoFloat.fin 7205759403792794 (-55)) ∧
    goFloatVal (GoFloat.fin 5404319552844596 (-54)) ≠
      some ((7205759403792794 : ℚ) * (2 : ℚ) ^ (-56 : ℤ) +
        (7205759403792794 : ℚ) * (2 : ℚ) ^ (-55 : ℤ)) ∧
    goFloatVal (GoFloat.fin 5404319552844596 (-54)) ≠ some (1 / 10 + 2 / 10) := by
  refine ⟨by decide, by decide, by decide, ?_, ?_⟩
  · simp only [goFloatVal, Option.some.injEq]
    intro h
    rw [zpow_neg, zpow_neg, zpow_neg] at h
    norm_num at h
  · simp only [goFloatVal, Option.some.injEq]
    intro h
    rw [zpow_neg] at h
    norm_num at h

/-- C8 (amended): when every fetched item's hours text parses, the
summary succeeds and, for every group title, the aggregated entry holds
the float64 accumulation of that group's parsed hours — the parsed
doubles added left to right with rounding after each addition, exactly
as the program's `+=` — and a pulse count equal to the number of that
group's items; on dyadic inputs such as `0.5`, `1`, `1.5` the
accumulation is exact (see the witness: total `3`, count `3`). -/
theorem summary_totals_f64 (items : List BoardItem)
    (hall : ∀ x ∈ items, (itemHours x).isSome = true) :
    ∃ M, buildGroupMap items [] = RunRes.ok M ∧
      cliGetBoardItemSummary items = RunRes.ok (sortGroups (groupsOf M)) ∧
      ∀ t, mGet M t =
        (((items.filter (fun x => x.Group.Title == t)).map
            (fun x => (itemHours x).getD (GoFloat.fin 0 0))).foldl goFloatAdd (GoFloat.fin 0 0),
          (items.filter (fun x => x.Group.Title == t)).length) := by
  obtain ⟨M, hM, hMt⟩ := buildGroupMap_fold items [] hall
  refine ⟨M, hM, ?_, fun t => ?_⟩
  · simp [cliGetBoardItemSummary, hM]
  · have h := hMt t
    simpa [mGet, lookupA] using h

/-- Witness for C8 (amended): three items with hours `0.5`, `1` and
`1.5` in group `g` aggregate to the double `3` (here the accumulation is
exact) with pulse count `3`. -/
theorem summary_totals_f64_witness :
    (∀ x ∈ [(⟨gs ("1"), gs ("a"), ⟨gs ("g")⟩, [⟨gs ("0.5")⟩]⟩ : BoardItem),
        ⟨gs ("2"), gs ("b"), ⟨gs ("g")⟩, [⟨gs ("1")⟩]⟩,
        ⟨gs ("3"), gs ("c"), ⟨gs ("g")⟩, [⟨gs ("1.5")⟩]⟩],
      (itemHours x).isSome = true) ∧
    ∃ M, buildGroupMap
        [⟨gs ("1"), gs ("a"), ⟨gs ("g")⟩, [⟨gs ("0.5")⟩]⟩,
          ⟨gs ("2"), gs ("b"), ⟨gs ("g")⟩, [⟨gs ("1")⟩]⟩,
          ⟨gs ("3"), gs ("c"), ⟨gs ("g")⟩, [⟨gs ("1.5")⟩]⟩] [] = RunRes.ok M ∧
      (mGet M (gs ("g"))).2 = 3 ∧ goFloatVal (mGet M (gs ("g"))).1 = some 3 := by
  have hall : ∀ x ∈ [(⟨gs ("1"), gs ("a"), ⟨gs ("g")⟩, [⟨gs ("0.5")⟩]⟩ : BoardItem),
      ⟨gs ("2"), gs ("b"), ⟨gs ("g")⟩, [⟨gs ("1")⟩]⟩,
      ⟨gs ("3"), gs ("c"), ⟨gs ("g")⟩, [⟨gs ("1.5")⟩]⟩],
      (itemHours x).isSome = true := by decide
  refine ⟨hall, ?_⟩
  obtain ⟨M, hM, _, hMt⟩ := summary_totals_f64 _ hall
  have h2 : mGet M (gs ("g")) = (GoFloat.fin 6755399441055744 (-51), 3) := by
    rw [hMt (gs ("g"))]
    decide
  refine ⟨M, hM, by rw [h2], ?_⟩
  rw [h2]
  simp only [goFloatVal, Option.some.injEq]
  rw [zpow_neg]
  norm_num

theorem buildGroupMap_err (it : BoardItem) (t : GoStr)
    (hcv : it.Column_Values.head? = some ⟨t⟩) (hbad : goParseFloat t = none) :
    ∀ (pre post : List BoardItem) (m : List (GoStr × GoFloat × Nat)),
      (∀ x ∈ pre, (itemHours x).isSome = true) →
      buildGroupMap (pre ++ it :: post) m = RunRes.err (msgSummaryNotANumber t it.ID) := by
  intro pre
  induction pre with
  | nil =>
    intro post m _
    cases hc : it.Column_Values with
    | nil => rw [hc] at hcv; simp at hcv
    | cons cv cvs =>
      rw [hc] at hcv
      have : cv = ⟨t⟩ := by simpa using hcv
      subst this
      simp [buildGroupMap, hc, hbad]
  | cons y ys ih =>
    intro post m hall
    have hy := hall y (List.mem_cons_self y ys)
    cases hyc : y.Column_Values with
    | nil => simp [itemHours, hyc] at hy
    | cons cv cvs =>
      have hcvp : (goParseFloat cv.Text).isSome = true := by
        simpa [itemHours, hyc] using hy
      obtain ⟨v, hv⟩ := Option.isSome_iff_exists.mp hcvp
      simp only [List.cons_append, buildGroupMap, hyc, hv]
      exact ih post _ (fun x hx => hall x (List.mem_cons_of_mem y hx))

/-- C10: when every item before the first bad one parses but some item's
hours text does not parse, the summary aborts with the error naming that
text and that item's pulse id, and prints no table; the plain listing
never parses: it prints every item's hours text verbatim, one table row
per item. -/
theorem summary_abort_listing_verbatim :
    (∀ (pre : List BoardItem) (it : BoardItem) (post : List BoardItem) (t : GoStr),
      (∀ x ∈ pre, (itemHours x).isSome = true) →
      it.Column_Values.head? = some ⟨t⟩ →
      goParseFloat t = none →
      cliGetBoardItemSummary (pre ++ it :: post) =
        RunRes.err (msgSummaryNotANumber t it.ID)) ∧
    (∀ items : List BoardItem, (∀ x ∈ items, x.Column_Values ≠ []) →
      cliGetBoardItems items =
        RunRes.ok ((sortItems items).map (fun x => (x.Group.Title, hoursText x, x.Name, x.ID))) ∧
      ∀ x ∈ items, (x.Group.Title, hoursText x, x.Name, x.ID) ∈
        (sortItems items).map (fun x => (x.Group.Title, hoursText x, x.Name, x.ID))) := by
  constructor
  · intro pre it post t hall hcv hbad
    simp [cliGetBoardItemSummary, buildGroupMap_err it t hcv hbad pre post [] hall]
  · intro items hall
    have hsorted : ∀ x ∈ sortItems items, x.Column_Values ≠ [] := by
      intro x hx
      exact hall x (mem_sortBy.mp hx)
    constructor
    · simp [cliGetBoardItems, itemRows_spec (sortItems items) hsorted]
    · intro x hx
      exact List.mem_map_of_mem _ (mem_sortBy.mpr hx)

/-- Witness for C10: a single item with hours text `abc` aborts the
summary naming `abc` and pulse `7`, while the listing prints the text
`abc` verbatim in its row. -/
theorem summary_abort_listing_verbatim_witness :
    ((∀ x ∈ ([] : List BoardItem), (itemHours x).isSome = true) ∧
      (⟨gs ("7"), gs ("bad"), ⟨gs ("g")⟩, [⟨gs ("abc")⟩]⟩ : BoardItem).Column_Values.head? =
        some ⟨gs ("abc")⟩ ∧
      goParseFloat (gs ("abc")) = none ∧
      cliGetBoardItemSummary
          ([] ++ (⟨gs ("7"), gs ("bad"), ⟨gs ("g")⟩, [⟨gs ("abc")⟩]⟩ : BoardItem) :: []) =
        RunRes.err (msgSummaryNotANumber (gs ("abc")) (gs ("7")))) ∧
    ((∀ x ∈ [(⟨gs ("7"), gs ("bad"), ⟨gs ("g")⟩, [⟨gs ("abc")⟩]⟩ : BoardItem)],
        x.Column_Values ≠ []) ∧
      cliGetBoardItems [(⟨gs ("7"), gs ("bad"), ⟨gs ("g")⟩, [⟨gs ("abc")⟩]⟩ : BoardItem)] =
        RunRes.ok
          ((sortItems [(⟨gs ("7"), gs ("bad"), ⟨gs ("g")⟩, [⟨gs ("abc")⟩]⟩ : BoardItem)]).map
            (fun x => (x.Group.Title, hoursText x, x.Name, x.ID)))) :=
  ⟨⟨fun x hx => absurd hx (List.not_mem_nil x), rfl, by decide,
      summary_abort_listing_verbatim.1 [] ⟨gs ("7"), gs ("bad"), ⟨gs ("g")⟩, [⟨gs ("abc")⟩]⟩ []
        (gs ("abc")) (fun x hx => absurd hx (List.not_mem_nil x)) rfl (by decide)⟩,
    ⟨by decide,
      (summary_abort_listing_verbatim.2 [⟨gs ("7"), gs ("bad"), ⟨gs ("g")⟩, [⟨gs ("abc")⟩]⟩]
        (by decide)).1⟩⟩
